import Mathlib

/-!
Verification development for the ct-vertex-sync repository: a shallow
embedding of the product transformer (`full-export/src/services/vertex-service.js`),
the full-sync orchestrator (`full-export/src/services/product-export-service.js`)
and the webhook message handler (`incremental-updater/src/handlers/message-handler.js`),
together with theorems settling the stated behavioural claims.

JavaScript values flowing through the webhook handler and through product
attribute bags are dynamically typed; they are modelled by the `Json`
inductive below.  Machine numbers occurring in prices are exact integers in
the source (cent amounts) and are divided by 100; the division is modelled
in `ℚ`.  Strings handled by the base64 decoder are restricted to
single-byte characters, which covers every payload the handler deals with.
-/

/-- Model of a dynamically typed JavaScript value (the subset produced by
`JSON.parse` and passed around by the message handler). -/
inductive Json where
  | null : Json
  | bool (b : Bool) : Json
  | num (n : Int) : Json
  | str (s : String) : Json
  | arr (elems : List Json) : Json
  | obj (fields : List (String × Json)) : Json

/-- Field lookup in an object's field list (first binding wins, as in a
JavaScript object literal where `objSet` below keeps keys unique). -/
def findField : List (String × Json) → String → Option Json
  | [], _ => none
  | (k2, v) :: rest, k => if k2 = k then some v else findField rest k

/-- Property access `j[k]`; non-objects have no (relevant) properties. -/
def jget : Json → String → Option Json
  | Json.obj fields, k => findField fields k
  | _, _ => none

/-- Optional-chaining access `o?.k` on a possibly absent value. -/
def jgetOpt (o : Option Json) (k : String) : Option Json :=
  match o with
  | some j => jget j k
  | none => none

/-- JavaScript truthiness of a value. -/
def jsonTruthy : Json → Bool
  | Json.null => false
  | Json.bool b => b
  | Json.num n => decide (n ≠ 0)
  | Json.str s => decide (s ≠ "")
  | Json.arr _ => true
  | Json.obj _ => true

/-- Truthiness of a possibly absent (`undefined`) value. -/
def otruthy (o : Option Json) : Bool :=
  match o with
  | some v => jsonTruthy v
  | none => false

/-- JavaScript `a || b` on possibly absent values. -/
def jsOr (a b : Option Json) : Option Json :=
  if otruthy a then a else b

/-- Strict string comparison `v === s` against a string literal. -/
def isStr (j : Json) (s : String) : Bool :=
  match j with
  | Json.str t => decide (t = s)
  | _ => false

/-- Strict string comparison through a possibly absent value. -/
def optIsStr (o : Option Json) (s : String) : Bool :=
  match o with
  | some j => isStr j s
  | none => false

mutual

/-- JavaScript string conversion `String(v)` for the values the services
stringify (attribute values and identifiers). -/
def jsToString : Json → String
  | Json.null => "null"
  | Json.bool b => if b then "true" else "false"
  | Json.num n => toString n
  | Json.str s => s
  | Json.obj _ => "[object Object]"
  | Json.arr xs => String.intercalate "," (jsToStringList xs)

/-- Array elements joined by `,`; `null` elements render empty, as in
`Array.prototype.toString`. -/
def jsToStringList : List Json → List String
  | [] => []
  | Json.null :: rest => "" :: jsToStringList rest
  | x :: rest => jsToString x :: jsToStringList rest

end

/-- Value of one base64 alphabet character. -/
def b64val (c : Char) : Option Nat :=
  if 'A' ≤ c ∧ c ≤ 'Z' then some (c.toNat - 65)
  else if 'a' ≤ c ∧ c ≤ 'z' then some (c.toNat - 97 + 26)
  else if '0' ≤ c ∧ c ≤ '9' then some (c.toNat - 48 + 52)
  else if c = '+' then some 62
  else if c = '/' then some 63
  else none

/-- Regroup 6-bit base64 values into 8-bit bytes (trailing partial groups
produce the bytes a lenient decoder such as Node's yields). -/
def b64groups : List Nat → List Nat
  | a :: b :: c :: d :: rest =>
      (a * 4 + b / 16) :: ((b % 16) * 16 + c / 4) :: ((c % 4) * 64 + d) :: b64groups rest
  | [a, b, c] => [a * 4 + b / 16, (b % 16) * 16 + c / 4]
  | [a, b] => [a * 4 + b / 16]
  | _ => []

/-- Model of `Buffer.from(s, 'base64')`: non-alphabet characters (including
padding) are skipped, the rest decodes to bytes. -/
def b64decodeBytes (s : String) : List Nat :=
  b64groups (s.toList.filterMap b64val)

/-- Model of `buf.toString('utf-8')` for single-byte content. -/
def bytesToString (bs : List Nat) : String :=
  String.mk (bs.map (fun b => Char.ofNat b))

/-- Whitespace recognized while parsing JSON. -/
def isWsChar (c : Char) : Bool :=
  c = ' ' ∨ c = '\t' ∨ c = '\n' ∨ c = '\r'

/-- Drop leading whitespace. -/
def skipWs (cs : List Char) : List Char :=
  cs.dropWhile isWsChar

/-- Numeric value of a digit run. -/
def digitsToNat (ds : List Char) : Nat :=
  ds.foldl (fun acc c => acc * 10 + (c.toNat - 48)) 0

/-- Leading decimal digits of a character stream, if any. -/
def leadingDigits (cs : List Char) : Option (Nat × List Char) :=
  let ds := cs.takeWhile Char.isDigit
  if ds = [] then none else some (digitsToNat ds, cs.drop ds.length)

/-- Parse the body of a JSON string literal (opening quote already
consumed), returning the decoded characters and the remainder after the
closing quote.  The `\u` escape is not needed by any payload handled here
and is rejected. -/
def parseStrChars : List Char → Option (List Char × List Char)
  | [] => none
  | c :: rest =>
    if c = '"' then some ([], rest)
    else if c = '\\' then
      match rest with
      | e :: rest2 =>
        let esc : Option Char :=
          if e = '"' then some '"'
          else if e = '\\' then some '\\'
          else if e = '/' then some '/'
          else if e = 'n' then some '\n'
          else if e = 't' then some '\t'
          else if e = 'r' then some '\r'
          else if e = 'b' then some (Char.ofNat 8)
          else if e = 'f' then some (Char.ofNat 12)
          else none
        match esc with
        | some ch =>
          match parseStrChars rest2 with
          | some (s, r) => some (ch :: s, r)
          | none => none
        | none => none
      | [] => none
    else
      match parseStrChars rest with
      | some (s, r) => some (c :: s, r)
      | none => none

/-- Check that a literal keyword follows, returning the remainder. -/
def dropLit : List Char → List Char → Option (List Char)
  | [], cs => some cs
  | l :: ls, c :: cs => if c = l then dropLit ls cs else none
  | _ :: _, [] => none

mutual

/-- Fueled recursive-descent parser for one JSON value (model of
`JSON.parse`, restricted to integer numbers, which is all the webhook
payloads carry). -/
def parseVal (fuel : Nat) (cs : List Char) : Option (Json × List Char) :=
  match fuel with
  | 0 => none
  | fuel + 1 =>
    match skipWs cs with
    | [] => none
    | c :: rest =>
      if c = '"' then
        match parseStrChars rest with
        | some (s, r) => some (Json.str (String.mk s), r)
        | none => none
      else if c = '\x7b' then
        match parseMembers fuel rest true with
        | some (ms, r) => some (Json.obj ms, r)
        | none => none
      else if c = '[' then
        match parseElems fuel rest true with
        | some (vs, r) => some (Json.arr vs, r)
        | none => none
      else if c = 't' then
        match dropLit ['r', 'u', 'e'] rest with
        | some r => some (Json.bool true, r)
        | none => none
      else if c = 'f' then
        match dropLit ['a', 'l', 's', 'e'] rest with
        | some r => some (Json.bool false, r)
        | none => none
      else if c = 'n' then
        match dropLit ['u', 'l', 'l'] rest with
        | some r => some (Json.null, r)
        | none => none
      else if c = '-' then
        match leadingDigits rest with
        | some (n, r) => some (Json.num (-(n : Int)), r)
        | none => none
      else if c.isDigit then
        match leadingDigits (c :: rest) with
        | some (n, r) => some (Json.num (n : Int), r)
        | none => none
      else none

/-- Parse the members of an object after the opening brace; `first` is true
before any member has been read. -/
def parseMembers (fuel : Nat) (cs : List Char) (first : Bool) :
    Option (List (String × Json) × List Char) :=
  match fuel with
  | 0 => none
  | fuel + 1 =>
    match skipWs cs with
    | [] => none
    | c :: rest =>
      if c = '\x7d' then
        if first then some ([], rest) else none
      else
        let afterSep : Option (List Char) :=
          if first then some (c :: rest)
          else if c = ',' then some (skipWs rest) else none
        match afterSep with
        | none => none
        | some cs2 =>
          match cs2 with
          | '"' :: cs3 =>
            match parseStrChars cs3 with
            | some (k, cs4) =>
              match skipWs cs4 with
              | ':' :: cs5 =>
                match parseVal fuel cs5 with
                | some (v, cs6) =>
                  match skipWs cs6 with
                  | '\x7d' :: cs7 => some ([(String.mk k, v)], cs7)
                  | cs7 =>
                    match parseMembers fuel cs7 false with
                    | some (ms, cs8) => some ((String.mk k, v) :: ms, cs8)
                    | none => none
                | none => none
              | _ => none
            | none => none
          | _ => none

/-- Parse the elements of an array after the opening bracket. -/
def parseElems (fuel : Nat) (cs : List Char) (first : Bool) :
    Option (List Json × List Char) :=
  match fuel with
  | 0 => none
  | fuel + 1 =>
    match skipWs cs with
    | [] => none
    | c :: rest =>
      if c = ']' then
        if first then some ([], rest) else none
      else
        let afterSep : Option (List Char) :=
          if first then some (c :: rest)
          else if c = ',' then some rest else none
        match afterSep with
        | none => none
        | some cs2 =>
          match parseVal fuel cs2 with
          | some (v, cs3) =>
            match skipWs cs3 with
            | ']' :: cs4 => some ([v], cs4)
            | cs4 =>
              match parseElems fuel cs4 false with
              | some (vs, cs5) => some (v :: vs, cs5)
              | none => none
          | none => none

end

/-- Model of `JSON.parse`: parse a full string to one value, requiring only
trailing whitespace afterwards; `none` models a thrown `SyntaxError`. -/
def jsonParse (s : String) : Option Json :=
  match parseVal (s.length + 1) s.toList with
  | some (j, rest) => if skipWs rest = [] then some j else none
  | none => none

/-- Truthiness of an optional string (`undefined` and `''` are falsy). -/
def strTruthyOpt (o : Option String) : Bool :=
  match o with
  | some s => decide (s ≠ "")
  | none => false

/-- JavaScript `o || d` for an optional string with a string default. -/
def orStrD (o : Option String) (d : String) : String :=
  match o with
  | some s => if s = "" then d else s
  | none => d

/-- Image dimensions as stored on a commercetools image. -/
structure Dimensions where
  w : Option Int
  h : Option Int

/-- One image on a variant. -/
structure ProdImage where
  url : String
  dimensions : Option Dimensions

/-- Monetary value: currency and amount in minor units (cents). -/
structure PriceValue where
  currencyCode : Option String
  centAmount : Option Int

/-- Discounted sub-price attached to a price entry. -/
structure DiscountedPrice where
  value : Option PriceValue

/-- One price entry of a variant. -/
structure Price where
  value : Option PriceValue
  discounted : Option DiscountedPrice

/-- One name/value attribute of a variant; the value is a dynamic JSON
value (`Json.null` also covers an explicit `null`). -/
structure ProdAttribute where
  name : String
  value : Json

/-- Direct availability block of a variant (REST API format). -/
structure VariantAvailability where
  availableQuantity : Option Int

/-- One product variant. -/
structure Variant where
  sku : Option String
  prices : Option (List Price)
  attributes : Option (List ProdAttribute)
  images : Option (List ProdImage)
  availability : Option VariantAvailability

/-- A category reference already resolved to a display name. -/
structure Category where
  name : String

/-- The `masterData.current` projection of a product. -/
structure CurrentData where
  name : Option String
  description : Option String
  categories : Option (List Category)
  masterVariant : Option Variant
  variants : Option (List Variant)

/-- The `masterData` wrapper. -/
structure MasterData where
  current : Option CurrentData

/-- A source product as consumed by `transformToRetailProduct`. -/
structure SourceProduct where
  id : String
  key : Option String
  title : Option String
  name : Option String
  productType : Option String
  masterData : Option MasterData

/-- Ambient configuration read from `process.env` by the transformer. -/
structure EnvConfig where
  ctpRegion : Option String
  productBaseUrl : Option String

/-- Pricing information extracted from a variant
(`extractPricingFromCommercetools` result object). -/
structure PricingInfo where
  price : ℚ
  originalPrice : Option ℚ
  currencyCode : String

/-- Availability information extracted from a product
(`extractAvailabilityFromCommercetools` result object). -/
structure AvailabilityInfo where
  availableQuantity : Int
  isAvailable : Bool
deriving DecidableEq

/-- One fulfillment option of the destination item. -/
structure FulfillmentOption where
  type : String
  placeIds : List String
deriving DecidableEq

/-- Price block of the destination item. -/
structure DestPriceInfo where
  currencyCode : String
  price : ℚ
  originalPrice : ℚ

/-- One image of the destination item. -/
structure DestImage where
  uri : String
  height : Int
  width : Int

/-- The Vertex AI retail item produced by the transformer.  The attribute
map models the insertion-ordered JavaScript object whose values are
`text: [..]` singletons. -/
structure DestinationItem where
  id : String
  title : String
  description : String
  categories : List String
  availableQuantity : Int
  availability : String
  uri : String
  images : List DestImage
  fulfillmentInfo : Option (List FulfillmentOption)
  priceInfo : Option DestPriceInfo
  attributes : List (String × List String)

/-- Projection `p.masterData?.current`. -/
def currentOf (p : SourceProduct) : Option CurrentData :=
  p.masterData.bind (fun md => md.current)

/-- The variant used for SKU, pricing, images and attributes
(`masterData?.current?.masterVariant || masterData?.current?.variants?.[0]`). -/
def primaryVariant (p : SourceProduct) : Option Variant :=
  match (currentOf p).bind (fun c => c.masterVariant) with
  | some v => some v
  | none => ((currentOf p).bind (fun c => c.variants)).bind List.head?

/-- Model of `extractPricingFromCommercetools` (vertex-service.js:215-239). -/
def extractPricingFromCommercetools (variant : Option Variant) : Option PricingInfo :=
  match variant with
  | none => none
  | some v =>
    match v.prices with
    | none => none
    | some [] => none
    | some (price :: _) =>
      let basePrice : ℚ :=
        match price.value with
        | some pv =>
          match pv.centAmount with
          | some c => if c ≠ 0 then (c : ℚ) / 100 else 0
          | none => 0
        | none => 0
      let currencyCode : String :=
        match price.value with
        | some pv => orStrD pv.currencyCode "USD"
        | none => "USD"
      match price.discounted with
      | some disc =>
        match disc.value with
        | some dv =>
          match dv.centAmount with
          | some d =>
            if d ≠ 0 then
              some { price := (d : ℚ) / 100, originalPrice := some basePrice,
                     currencyCode := currencyCode }
            else
              some { price := basePrice, originalPrice := none, currencyCode := currencyCode }
          | none => some { price := basePrice, originalPrice := none, currencyCode := currencyCode }
        | none => some { price := basePrice, originalPrice := none, currencyCode := currencyCode }
      | none => some { price := basePrice, originalPrice := none, currencyCode := currencyCode }

/-- Predicate of the `attributes.find(...)` call scanning for stock-like
attribute names (vertex-service.js:259-267). -/
def isStockAttrName (n : String) : Bool :=
  n = "stock" || n = "quantity" || n = "availableQuantity" || n = "inventory" ||
  n = "stockLevel" || n = "qty" || n = "qtyAvailable"

/-- Model of the `find` call: first attribute in bag order whose name is a
recognized stock-like key. -/
def findStockAttr (attrs : List ProdAttribute) : Option ProdAttribute :=
  attrs.find? (fun a => isStockAttrName a.name)

/-- Model of `parseInt(v) || 0`: convert to string, parse an optional sign
and leading decimal digits, and fall back to `0` when the result is `NaN`
(hexadecimal prefixes, which no stock value uses, are not modelled). -/
def parseIntOr0 (v : Json) : Int :=
  let cs := (jsToString v).toList.dropWhile isWsChar
  let signed : Option (Bool × List Char) :=
    match cs with
    | '-' :: rest => some (true, rest)
    | '+' :: rest => some (false, rest)
    | _ => some (false, cs)
  match signed with
  | some (neg, body) =>
    match leadingDigits body with
    | some (n, _) => if neg then -(n : Int) else (n : Int)
    | none => 0
  | none => 0

/-- Direct availability check of one variant
(`variant.availability?.availableQuantity !== undefined`). -/
def variantAvailDirect (v : Variant) : Option AvailabilityInfo :=
  match v.availability with
  | some av =>
    match av.availableQuantity with
    | some q => some { availableQuantity := q, isAvailable := decide (q > 0) }
    | none => none
  | none => none

/-- Attribute-bag fallback of one variant: consult the first stock-named
attribute; it yields a result only when its value is truthy. -/
def variantAvailAttrs (v : Variant) : Option AvailabilityInfo :=
  match v.attributes with
  | some attrs =>
    match findStockAttr attrs with
    | some a =>
      if jsonTruthy a.value then
        let q := parseIntOr0 a.value
        some { availableQuantity := q, isAvailable := decide (q > 0) }
      else none
    | none => none
  | none => none

/-- The `for (const variant of variants)` loop of the availability
extraction: first variant yielding either a direct or an attribute-based
quantity wins. -/
def availLoop : List Variant → Option AvailabilityInfo
  | [] => none
  | v :: rest =>
    match variantAvailDirect v with
    | some r => some r
    | none =>
      match variantAvailAttrs v with
      | some r => some r
      | none => availLoop rest

/-- Model of `extractAvailabilityFromCommercetools` (vertex-service.js:244-315). -/
def extractAvailabilityFromCommercetools (p : SourceProduct) : AvailabilityInfo :=
  let fromMaster : Option AvailabilityInfo :=
    match (currentOf p).bind (fun c => c.masterVariant) with
    | some mv =>
      match variantAvailDirect mv with
      | some r => some r
      | none => variantAvailAttrs mv
    | none => none
  match fromMaster with
  | some r => r
  | none =>
    match availLoop (((currentOf p).bind (fun c => c.variants)).getD []) with
    | some r => r
    | none => { availableQuantity := 0, isAvailable := false }

/-- Model of `buildFulfillmentInfo` (vertex-service.js:320-346). -/
def buildFulfillmentInfo (a : AvailabilityInfo) : List FulfillmentOption :=
  (if a.isAvailable then
    [{ type := "pickup-in-store", placeIds := ["store1", "store2"] }] else []) ++
  (if a.isAvailable && decide (a.availableQuantity > 10) then
    [{ type := "same-day-delivery", placeIds := ["store1", "store2"] }] else []) ++
  [{ type := "delivery", placeIds := ["store1", "store2"] }]

/-- Model of `buildProductUri` (vertex-service.js:351-361). -/
def buildProductUri (env : EnvConfig) (p : SourceProduct) : String :=
  let baseUrl := orStrD env.productBaseUrl "https://your-store.com"
  let vsku := (primaryVariant p).bind (fun v => v.sku)
  let sku :=
    if strTruthyOpt vsku then vsku.getD ""
    else if strTruthyOpt p.key then p.key.getD ""
    else p.id
  baseUrl ++ "/products/" ++ sku

/-- Assignment `m[k] = v` on an insertion-ordered object: overwrite in
place or append. -/
def objSet (m : List (String × List String)) (k : String) (v : List String) :
    List (String × List String) :=
  match m with
  | [] => [(k, v)]
  | (k2, v2) :: rest => if k2 = k then (k, v) :: rest else (k2, v2) :: objSet rest k v

/-- The `variant.attributes.forEach` loop building the custom-attribute
object: each attribute with a truthy value is assigned (stringified). -/
def buildAttrs (attrs : List ProdAttribute) : List (String × List String) :=
  attrs.foldl
    (fun acc a => if jsonTruthy a.value then objSet acc a.name [jsToString a.value] else acc)
    []

/-- Lookup in the attribute object. -/
def lookupAttr (m : List (String × List String)) (k : String) : Option (List String) :=
  match m with
  | [] => none
  | (k2, v) :: rest => if k2 = k then some v else lookupAttr rest k

/-- Model of `transformToRetailProduct` (vertex-service.js:123-210). -/
def transformToRetailProduct (env : EnvConfig) (p : SourceProduct) : DestinationItem :=
  let productName :=
    orStrD ((currentOf p).bind (fun c => c.name)) (orStrD p.title (orStrD p.name "No name"))
  let productDescription := orStrD ((currentOf p).bind (fun c => c.description)) ""
  let variant := primaryVariant p
  let sku := orStrD (variant.bind (fun v => v.sku)) (orStrD (some p.id) "NO-SKU")
  let pricingInfo := extractPricingFromCommercetools variant
  let availabilityInfo := extractAvailabilityFromCommercetools p
  let fulfillmentInfo := buildFulfillmentInfo availabilityInfo
  let m0 :=
    match variant.bind (fun v => v.attributes) with
    | some attrs => buildAttrs attrs
    | none => []
  let m1 := objSet m0 "sku" [sku]
  let m2 :=
    if strTruthyOpt p.productType then objSet m1 "product_type" [p.productType.getD ""]
    else m1
  let m3 := objSet m2 "ctp_region" [orStrD env.ctpRegion "unknown"]
  { id := p.id
    title := productName
    description := productDescription
    categories :=
      match (currentOf p).bind (fun c => c.categories) with
      | some cs => cs.map (fun c => c.name)
      | none => []
    availableQuantity := availabilityInfo.availableQuantity
    availability :=
      if availabilityInfo.availableQuantity > 0 then "IN_STOCK" else "OUT_OF_STOCK"
    uri := buildProductUri env p
    images :=
      match variant.bind (fun v => v.images) with
      | some imgs =>
        imgs.map (fun img =>
          { uri := img.url
            height := match img.dimensions.bind (fun d => d.h) with
              | some h => if h ≠ 0 then h else 0
              | none => 0
            width := match img.dimensions.bind (fun d => d.w) with
              | some w => if w ≠ 0 then w else 0
              | none => 0 })
      | none => []
    fulfillmentInfo :=
      if fulfillmentInfo.length > 0 then some fulfillmentInfo else none
    priceInfo :=
      match pricingInfo with
      | some pi =>
        some { currencyCode := pi.currencyCode
               price := pi.price
               originalPrice :=
                 match pi.originalPrice with
                 | some op => if op ≠ 0 then op else pi.price
                 | none => pi.price }
      | none => none
    attributes := m3 }

/-- Working payload after the transport unwrapping steps of
`handleMessage` (message-handler.js:10-38): decode a Pub/Sub envelope's
base64 `message.data` (falling back to a `rawData` wrapper when the decoded
text does not parse, and to the original message when the carried data is
not a string), then descend into `data`, then into `message`. -/
def workingPayload (message : Json) : Json :=
  let md1 : Json :=
    match jget message "message" with
    | some m =>
      if jsonTruthy m then
        match jget m "data" with
        | some d =>
          if jsonTruthy d then
            match d with
            | Json.str s =>
              let decoded := bytesToString (b64decodeBytes s)
              match jsonParse decoded with
              | some parsed => parsed
              | none => Json.obj [("rawData", Json.str decoded)]
            | _ => message
          else message
        | none => message
      else message
    | none => message
  let md2 : Json :=
    match jget message "data" with
    | some d =>
      if jsonTruthy d && !(otruthy (jget md1 "rawData")) then d else md1
    | none => md1
  match jget message "message" with
  | some m =>
    if jsonTruthy m && !(otruthy (jget md2 "rawData")) && !(otruthy (jget md2 "resource"))
    then m else md2
  | none => md2

/-- Identifier extraction from the working payload
(message-handler.js:40-71): dispatch on the `notificationType`
discriminator, with a generic first-truthy-field fallback. -/
def extractTuple (md : Json) : Option Json × Option Json × Option Json :=
  if optIsStr (jget md "notificationType") "Message" then
    (jgetOpt (jget md "resource") "typeId", jgetOpt (jget md "resource") "id",
     jget md "type")
  else if optIsStr (jget md "notificationType") "Change" then
    (jget md "resourceTypeId", jget md "resourceId",
     jsOr (jget md "changeType") (jget md "type"))
  else if optIsStr (jget md "notificationType") "Event" then
    (jget md "resourceType", jget md "resourceId", jget md "type")
  else
    (jsOr (jsOr (jsOr (jgetOpt (jget md "resource") "typeId") (jget md "resourceTypeId"))
       (jget md "resourceType")) (jget md "typeId"),
     jsOr (jsOr (jgetOpt (jget md "resource") "id") (jget md "resourceId")) (jget md "id"),
     jsOr (jsOr (jsOr (jget md "type") (jget md "messageType")) (jget md "eventType"))
       (jget md "changeType"))

/-- Composition of transport unwrapping and identifier extraction: the
(resourceTypeId, resourceId, eventType) tuple the normalizer reads out of
one inbound webhook delivery. -/
def extractTupleOfMessage (message : Json) : Option Json × Option Json × Option Json :=
  extractTuple (workingPayload message)

/-- Result object returned by the message-handling path.  Only the fields
the specification talks about are modelled (`success`, `action`,
`message`); extra diagnostic fields of some branches are elided. -/
structure HandlerResult where
  success : Bool
  action : Option String
  message : Option String
deriving DecidableEq

/-- Event names of the update group of the `switch` in
`handleProductMessage` (message-handler.js:190-214). -/
def updateEventNames : List String :=
  ["ProductVariantAdded", "ProductVariantRemoved", "ProductVariantUpdated",
   "ProductPriceChanged", "ProductPriceRemoved", "ProductPriceAdded",
   "ProductSlugChanged", "ProductNameChanged", "ProductDescriptionChanged",
   "ProductMetaTitleChanged", "ProductMetaDescriptionChanged",
   "ProductMetaKeywordsChanged", "ProductCategoryAdded", "ProductCategoryRemoved",
   "ProductImagesChanged", "ProductAttributeAdded", "ProductAttributeRemoved",
   "ProductAttributeChanged", "ProductStateChanged", "ProductTaxCategoryChanged",
   "ProductSearchKeywordsChanged", "ProductExternalImageChanged",
   "ProductAssetAdded", "ProductAssetRemoved", "ProductAssetChanged"]

/-- Model of `handleProductMessage` (message-handler.js:140-238).  The
product-sync service is passed in as `sync` (id value, action), returning
either a thrown error or a result object; exceptions propagate, as the
source rethrows in its `catch`. -/
def handleProductMessage (sync : Json → String → Except String HandlerResult)
    (ty productId : Json) : Except String HandlerResult :=
  if isStr ty "ProductCreated" then
    match sync productId "upsert" with
    | Except.ok r =>
      Except.ok { r with
        action := some "created"
        message := some ("Product " ++ jsToString productId ++ " created in Vertex AI") }
    | Except.error e => Except.error e
  else if isStr ty "ProductPublished" then
    match sync productId "upsert" with
    | Except.ok r =>
      Except.ok { r with
        action := some "published"
        message := some ("Product " ++ jsToString productId ++ " published to Vertex AI") }
    | Except.error e => Except.error e
  else if isStr ty "ProductDeleted" then
    match sync productId "delete" with
    | Except.ok r =>
      Except.ok { r with
        action := some "deleted"
        message := some ("Product " ++ jsToString productId ++ " deleted from Vertex AI") }
    | Except.error e => Except.error e
  else if isStr ty "ProductUnpublished" then
    match sync productId "delete" with
    | Except.ok r =>
      Except.ok { r with
        action := some "unpublished"
        message := some ("Product " ++ jsToString productId ++ " unpublished from Vertex AI") }
    | Except.error e => Except.error e
  else if (match ty with
           | Json.str s => updateEventNames.contains s
           | _ => false) then
    match sync productId "upsert" with
    | Except.ok r =>
      Except.ok { r with
        action := some "updated"
        message := some ("Product " ++ jsToString productId ++ " updated in Vertex AI (" ++
          jsToString ty ++ ")") }
    | Except.error e => Except.error e
  else
    Except.ok { success := true
                action := some "ignored"
                message := some ("Unhandled product message type: " ++ jsToString ty) }

/-- Scan for the regex `"f"\s*:\s*"([^"]+)"` (for a field name `f`) at the
head of a character stream, returning the captured run. -/
def rawFieldAt (field : String) (cs : List Char) : Option String :=
  match dropLit ('"' :: (field.toList ++ ['"'])) cs with
  | some r1 =>
    match skipWs r1 with
    | ':' :: r2 =>
      match skipWs r2 with
      | '"' :: r3 =>
        let captured := r3.takeWhile (fun c => c ≠ '"')
        if captured = [] then none
        else
          match r3.drop captured.length with
          | '"' :: _ => some (String.mk captured)
          | _ => none
      | _ => none
    | _ => none
  | none => none

/-- First match of the raw-data regex anywhere in the text. -/
def rawFieldScan (field : String) : List Char → Option String
  | [] => none
  | c :: rest =>
    match rawFieldAt field (c :: rest) with
    | some s => some s
    | none => rawFieldScan field rest

/-- Model of `handleMessage` (message-handler.js:7-138): unwrap the
transport envelope, extract identifiers, fall back to a best-effort
product id and to raw-text extraction, and dispatch on the resource type. -/
def handleMessage (sync : Json → String → Except String HandlerResult)
    (message : Json) : Except String HandlerResult :=
  let md := workingPayload message
  let t := extractTuple md
  let resourceTypeId := t.1
  let resourceId := t.2.1
  let eventType := t.2.2
  if !(otruthy resourceTypeId) || !(otruthy resourceId) || !(otruthy eventType) then
    let possibleProductId :=
      jsOr (jsOr (jsOr (jsOr (jget md "productId") (jgetOpt (jget md "product") "id"))
        (jget md "id")) (jget md "key")) (jget md "subject")
    if otruthy possibleProductId then
      handleProductMessage sync (Json.str "ProductUpdated") (possibleProductId.getD Json.null)
    else
      match jget md "rawData" with
      | some (Json.str raw) =>
        if raw ≠ "" then
          match rawFieldScan "id" raw.toList, rawFieldScan "type" raw.toList with
          | some pid, some pty =>
            handleProductMessage sync (Json.str pty) (Json.str pid)
          | _, _ =>
            Except.ok { success := true
                        action := some "ignored"
                        message := some "Message received but could not parse" }
        else
          Except.ok { success := true
                      action := some "ignored"
                      message := some "Message received but could not parse" }
      | _ =>
        Except.ok { success := true
                    action := some "ignored"
                    message := some "Message received but could not parse" }
  else
    if optIsStr resourceTypeId "product" then
      handleProductMessage sync (eventType.getD Json.null) (resourceId.getD Json.null)
    else
      Except.ok { success := true
                  action := some "ignored"
                  message := some ("Unhandled resource type: " ++
                    jsToString (resourceTypeId.getD Json.null)) }

/-- Step-indexed model of the literal `for (let i = 0; i < array.length;
i += size)` loop of `chunkArray` (product-export-service.js:119-125), one
fuel unit per iteration, each iteration pushing `array.slice(i, i + size)`:
`none` means the loop is still running when the fuel runs out. -/
def chunkArrayFuel {α : Type} (fuel : Nat) (array : List α) (i : Nat) (size : Nat) :
    Option (List (List α)) :=
  match fuel with
  | 0 => none
  | fuel + 1 =>
    if i < array.length then
      match chunkArrayFuel fuel array (i + size) size with
      | some rest => some (((array.drop i).take size) :: rest)
      | none => none
    else some []

/-- Model of `chunkArray`: the loop run with enough fuel (for a positive
size the loop performs at most `length + 1` iterations).  For `size = 0`
on a non-empty list the source loop never terminates; the wrapper then
returns `[]`, a case no caller of `chunkArray` exercises (the source
always passes 50) and no claim relies on. -/
def chunkArray {α : Type} (array : List α) (size : Nat) : List (List α) :=
  (chunkArrayFuel (array.length + 1) array 0 size).getD []

/-- Proof-side recursive description of the chunking loop, convenient for
induction. -/
def chunkList {α : Type} : List α → Nat → List (List α)
  | [], _ => []
  | _ :: _, 0 => []
  | x :: xs, n + 1 => ((x :: xs).take (n + 1)) :: chunkList (xs.drop n) (n + 1)
  termination_by l _ => l.length
  decreasing_by simp [List.length_drop]; omega

/-- One recorded batch failure of the full sync (the objects pushed onto
`errors` in product-export-service.js:44-48). -/
structure BatchError where
  batchIndex : Nat
  error : String
  products : List String
deriving DecidableEq

/-- Final summary of `performFullSync` (product-export-service.js:60-67);
the timing field is not modelled. -/
structure SyncSummary where
  success : Bool
  totalProducts : Nat
  processedCount : Nat
  errorCount : Nat
  errors : Option (List BatchError)
deriving DecidableEq

/-- The batch loop of `performFullSync` (product-export-service.js:35-55):
a successful write adds the batch size to the processed counter; a thrown
write adds it to the error counter and records the batch's product ids and
the error message, and the loop continues either way. -/
def syncLoop (write : List SourceProduct → Except String Unit) :
    List (List SourceProduct) → Nat → Nat → Nat → List BatchError →
    Nat × Nat × List BatchError
  | [], _, processed, errored, errs => (processed, errored, errs)
  | b :: rest, i, processed, errored, errs =>
    match write b with
    | Except.ok _ => syncLoop write rest (i + 1) (processed + b.length) errored errs
    | Except.error e =>
      syncLoop write rest (i + 1) processed (errored + b.length)
        (errs ++ [{ batchIndex := i, error := e, products := b.map (fun p => p.id) }])

/-- Model of `performFullSync` (product-export-service.js:18-76) with the
batch write call injected; the fixed batch size is 50 as in the source. -/
def performFullSync (write : List SourceProduct → Except String Unit)
    (products : List SourceProduct) : SyncSummary :=
  let batches := chunkArray products 50
  let r := syncLoop write batches 0 0 0 []
  { success := true
    totalProducts := products.length
    processedCount := r.1
    errorCount := r.2.1
    errors := if r.2.2.length > 0 then some r.2.2 else none }

/-- Modelled from the spec: the availability fallback as §4.2 words it,
scanning the recognized stock-like keys "in that enumerated priority
order, first match wins" — i.e. the first KEY of the enumerated list for
which some attribute with that name exists wins, regardless of the
attributes' order in the bag.  Used only to exhibit the divergence from
the source's bag-order scan. -/
def specKeyPriorityScan (attrs : List ProdAttribute) : Option ProdAttribute :=
  ["stock", "quantity", "availableQuantity", "inventory", "stockLevel", "qty",
   "qtyAvailable"].firstM (fun k => attrs.find? (fun a => a.name = k))

/-- Whether a write call returned without throwing. -/
def exceptOk {ε β : Type} : Except ε β → Bool
  | Except.ok _ => true
  | Except.error _ => false

/-- Declarative description of the error records accumulated by the batch
loop: one entry per failing batch, carrying its index, the error message
and the batch's product ids. -/
def failEntries (write : List SourceProduct → Except String Unit) :
    Nat → List (List SourceProduct) → List BatchError
  | _, [] => []
  | i, b :: rest =>
    match write b with
    | Except.ok _ => failEntries write (i + 1) rest
    | Except.error e =>
      { batchIndex := i, error := e, products := b.map (fun p => p.id) } ::
        failEntries write (i + 1) rest

/-- A product carrying only an id, as the batching scenario needs. -/
def trivialProduct (id : String) : SourceProduct :=
  { id := id, key := none, title := none, name := none, productType := none,
    masterData := none }

/-- The 120-item catalog of the batching scenario, with ids "0" to "119". -/
def scenarioProducts : List SourceProduct :=
  (List.range 120).map (fun i => trivialProduct (toString i))

/-- A write call that fails exactly on the batch starting with product
"50", i.e. on the second of the three batches of the scenario. -/
def failSecondBatch : List SourceProduct → Except String Unit := fun b =>
  match b.head? with
  | some p => if p.id = "50" then Except.error "simulated failure" else Except.ok ()
  | none => Except.ok ()

/-- Environment with neither region nor base URL configured. -/
def envPlain : EnvConfig := { ctpRegion := none, productBaseUrl := none }

/-- Convenience constructor: a product with the given id and master
variant and nothing else. -/
def productWithMasterVariant (id : String) (mv : Variant) : SourceProduct :=
  { id := id
    key := none
    title := none
    name := none
    productType := none
    masterData := some
      { current := some
          { name := some "A product"
            description := none
            categories := none
            masterVariant := some mv
            variants := none } } }

/-- A variant with an empty price list. -/
def emptyPricesVariant : Variant :=
  { sku := some "S-1", prices := some [], attributes := none, images := none,
    availability := none }

/-- A product whose master variant carries zero price entries. -/
def emptyPricesProduct : SourceProduct :=
  productWithMasterVariant "prod-1" emptyPricesVariant

/-- A price entry whose base cent amount is 0 but which carries a
discounted sub-price of 500 cents. -/
def zeroBaseDiscPrice : Price :=
  { value := some { currencyCode := none, centAmount := some 0 },
    discounted := some { value := some { currencyCode := none, centAmount := some 500 } } }

/-- Product carrying `zeroBaseDiscPrice` on its master variant. -/
def zeroBaseDiscProduct : SourceProduct :=
  productWithMasterVariant "prod-zb"
    { sku := none, prices := some [zeroBaseDiscPrice], attributes := none,
      images := none, availability := none }

/-- A price entry with base 1000 cents carrying a discounted sub-price
whose cent amount is 0. -/
def zeroDiscPrice : Price :=
  { value := some { currencyCode := none, centAmount := some 1000 },
    discounted := some { value := some { currencyCode := none, centAmount := some 0 } } }

/-- Product carrying `zeroDiscPrice` on its master variant. -/
def zeroDiscProduct : SourceProduct :=
  productWithMasterVariant "prod-zd"
    { sku := none, prices := some [zeroDiscPrice], attributes := none,
      images := none, availability := none }

/-- A price entry with base 2000 cents and a discounted sub-price of 1500
cents, both currency-less. -/
def discountedPriceEntry : Price :=
  { value := some { currencyCode := none, centAmount := some 2000 },
    discounted := some { value := some { currencyCode := none, centAmount := some 1500 } } }

/-- Variant carrying `discountedPriceEntry`. -/
def discountedVariant : Variant :=
  { sku := none, prices := some [discountedPriceEntry], attributes := none,
    images := none, availability := none }

/-- Product carrying `discountedVariant` as its master variant. -/
def discountedProduct : SourceProduct :=
  productWithMasterVariant "prod-d" discountedVariant

/-- Attribute bag in which a lower-priority stock key (`qty`) precedes a
higher-priority one (`stock`). -/
def keyOrderAttrs : List ProdAttribute :=
  [{ name := "qty", value := Json.str "5" }, { name := "stock", value := Json.str "7" }]

/-- Product whose master variant has no direct availability and carries
`keyOrderAttrs`. -/
def keyOrderProduct : SourceProduct :=
  productWithMasterVariant "prod-k"
    { sku := none, prices := none, attributes := some keyOrderAttrs, images := none,
      availability := none }

/-- Product whose master variant has direct availability 42. -/
def directAvailProduct : SourceProduct :=
  productWithMasterVariant "prod-a"
    { sku := none, prices := none, attributes := none, images := none,
      availability := some { availableQuantity := some 42 } }

/-- The last attribute in a bag with the given name and a truthy value
(JavaScript object assignment lets later attributes overwrite earlier
ones). -/
def lastTruthyAttr (attrs : List ProdAttribute) (n : String) : Option ProdAttribute :=
  match attrs with
  | [] => none
  | a :: rest =>
    match lastTruthyAttr rest n with
    | some b => some b
    | none => if a.name = n && jsonTruthy a.value then some a else none

/-- Attribute bag of the primary variant (empty when absent). -/
def attrsOfPrimary (p : SourceProduct) : List ProdAttribute :=
  ((primaryVariant p).bind (fun v => v.attributes)).getD []

/-- The SKU the transformer computes
(`variant?.sku || commercetoolsProduct.id || 'NO-SKU'`). -/
def skuOf (p : SourceProduct) : String :=
  orStrD ((primaryVariant p).bind (fun v => v.sku)) (orStrD (some p.id) "NO-SKU")

/-- Variant with sku "SKU1" whose bag collides with the injected `sku` key
and repeats the `color` name. -/
def attrCollisionVariant : Variant :=
  { sku := some "SKU1", prices := none,
    attributes := some
      [{ name := "sku", value := Json.str "fake" },
       { name := "color", value := Json.str "red" },
       { name := "color", value := Json.str "blue" }],
    images := none, availability := none }

/-- Product with `attrCollisionVariant` and no product type. -/
def attrCollisionProduct : SourceProduct :=
  productWithMasterVariant "prod-c" attrCollisionVariant

/-- Environment with a configured region. -/
def envRegion : EnvConfig := { ctpRegion := some "us-central1", productBaseUrl := none }

/-- Product with a product type, a SKU and one ordinary attribute. -/
def attrWitnessProduct : SourceProduct :=
  { productWithMasterVariant "prod-aw"
      { sku := some "W-SKU", prices := none,
        attributes := some [{ name := "color", value := Json.str "red" }],
        images := none, availability := none } with
    productType := some "Type A" }

/-- A commercetools `Message`-notification payload carrying the given
resource type, resource id and event name. -/
def messagePayload (rt rid ty : String) : Json :=
  Json.obj [("notificationType", Json.str "Message"),
            ("resource", Json.obj [("typeId", Json.str rt), ("id", Json.str rid)]),
            ("type", Json.str ty)]

/-- Transport shape 2: the payload nested under `data`. -/
def nestedEnvelope (rt rid ty : String) : Json :=
  Json.obj [("data", messagePayload rt rid ty)]

/-- Transport shape 3: a Pub/Sub envelope carrying base64 text under
`message.data`. -/
def pubsubEnvelope (s : String) : Json :=
  Json.obj [("message", Json.obj [("data", Json.str s)])]

/-- Transport shape 4: a CloudEvents-style envelope with its own metadata
fields and the payload under `data`. -/
def cloudEventsEnvelope (rt rid ty : String) : Json :=
  Json.obj [("specversion", Json.str "1.0"), ("id", Json.str "ce-1"),
            ("type", Json.str "com.commercetools.product.message"),
            ("source", Json.str "/commercetools"),
            ("data", messagePayload rt rid ty)]

/-- Base64 text of the JSON serialization of
`messagePayload "product" "p1" "ProductPublished"`. -/
def pubsubWitnessData : String :=
  "eyJub3RpZmljYXRpb25UeXBlIjoiTWVzc2FnZSIsInJlc291cmNlIjp7InR5cGVJZCI6InByb2R1Y3QiLCJpZCI6InAxIn0sInR5cGUiOiJQcm9kdWN0UHVibGlzaGVkIn0="

/-- Field names the message handler probes during extraction and
fallback. -/
def probedFieldNames : List String :=
  ["message", "data", "notificationType", "resource", "resourceTypeId", "resourceId",
   "resourceType", "typeId", "type", "changeType", "messageType", "eventType",
   "productId", "product", "id", "key", "subject", "rawData"]

/-- A run of the chunking loop with fuel exceeding the remaining length
produces exactly the recursive chunk description of the unprocessed
suffix. -/
theorem chunkArrayFuel_eq_chunkList {α : Type} (s : Nat) :
    ∀ (f i : Nat) (array : List α), array.length - i < f →
      chunkArrayFuel f array i (s + 1) = some (chunkList (array.drop i) (s + 1)) := by
  intro f
  induction f with
  | zero => intro i array h; omega
  | succ f ih =>
    intro i array h
    by_cases hi : i < array.length
    · have hrec := ih (i + (s + 1)) array (by omega)
      have hne : array.drop i ≠ [] := by
        intro hc
        have := List.drop_eq_nil_iff.mp hc
        omega
      obtain ⟨y, ys, hys⟩ := List.exists_cons_of_ne_nil hne
      have hdd : array.drop (i + (s + 1)) = ys.drop s := by
        have h1 : (array.drop i).drop (s + 1) = array.drop (i + (s + 1)) :=
          List.drop_drop (s + 1) i array
        rw [hys] at h1
        simp at h1
        exact h1.symm
      rw [chunkArrayFuel]
      simp only [hi, if_pos, hrec, hdd, hys]
      rw [chunkList]
    · have hle : array.length ≤ i := by omega
      have hd : array.drop i = [] := List.drop_eq_nil_of_le hle
      rw [chunkArrayFuel]
      simp [hi, hd, chunkList]

/-- Concatenating the recursive chunk description reproduces the list. -/
theorem chunkList_flatten {α : Type} :
    ∀ (l : List α) (n : Nat), (chunkList l (n + 1)).flatten = l
  | [], _ => by simp [chunkList]
  | x :: xs, n => by
    rw [chunkList]
    have ih := chunkList_flatten (xs.drop n) n
    simp only [List.flatten_cons, ih]
    simp [List.take_append_drop]
  termination_by l _ => l.length
  decreasing_by simp [List.length_drop]; omega

/-- For a positive size the total wrapper agrees with the recursive chunk
description. -/
theorem chunkArray_eq_chunkList {α : Type} (l : List α) (n : Nat) :
    chunkArray l (n + 1) = chunkList l (n + 1) := by
  unfold chunkArray
  rw [chunkArrayFuel_eq_chunkList n (l.length + 1) 0 l (by omega)]
  simp

/-- Claim C9: for every list (including the empty list) and every chunk
size of at least one, concatenating the chunks produced by `chunkArray` in
order reproduces the original list in its original order. -/
theorem chunkArray_flatten_eq {α : Type} (items : List α) (n : Nat) (h : 1 ≤ n) :
    (chunkArray items n).flatten = items := by
  obtain ⟨m, rfl⟩ : ∃ m, n = m + 1 := ⟨n - 1, by omega⟩
  rw [chunkArray_eq_chunkList]
  exact chunkList_flatten items m

/-- Witness for C9 at a concrete list and size. -/
theorem chunkArray_flatten_eq_witness :
    (chunkArray [3, 1, 4, 1, 5] 2).flatten = [3, 1, 4, 1, 5] :=
  chunkArray_flatten_eq [3, 1, 4, 1, 5] 2 (by decide)

/-- Claim C10: with chunk size at least one the chunking loop terminates
(fuel `length + 1` suffices), and the positivity precondition is
necessary: with size zero on a non-empty list the loop never terminates
(no amount of fuel completes it). -/
theorem chunkArray_termination {α : Type} :
    (∀ (l : List α) (n : Nat), 1 ≤ n →
       ∃ res, chunkArrayFuel (l.length + 1) l 0 n = some res) ∧
    (∀ (l : List α) (f : Nat), l ≠ [] → chunkArrayFuel f l 0 0 = none) := by
  constructor
  · intro l n h
    obtain ⟨m, rfl⟩ : ∃ m, n = m + 1 := ⟨n - 1, by omega⟩
    exact ⟨chunkList (l.drop 0) (m + 1),
      chunkArrayFuel_eq_chunkList m (l.length + 1) 0 l (by omega)⟩
  · intro l f h
    induction f with
    | zero => rfl
    | succ f ih =>
      have hlen : 0 < l.length := List.length_pos.mpr h
      rw [chunkArrayFuel]
      simp [hlen, ih]

/-- Witness for C10 at a concrete list, size and fuel. -/
theorem chunkArray_termination_witness :
    (∃ res, chunkArrayFuel 6 [10, 20, 30, 40, 50] 0 2 = some res) ∧
    chunkArrayFuel 7 [10, 20, 30] 0 0 = none :=
  ⟨(chunkArray_termination.1 [10, 20, 30, 40, 50] 2 (by decide)),
   (chunkArray_termination.2 [10, 20, 30] 7 (by decide))⟩

/-- Unfolded characterization of the batch loop: counters accumulate the
sizes of succeeding and failing batches and the error list accumulates one
entry per failing batch, the loop never stopping early. -/
theorem syncLoop_spec (write : List SourceProduct → Except String Unit) :
    ∀ (bs : List (List SourceProduct)) (i processed errored : Nat) (errs : List BatchError),
      syncLoop write bs i processed errored errs =
        (processed + ((bs.filter (fun b => exceptOk (write b))).map List.length).sum,
         errored + ((bs.filter (fun b => !exceptOk (write b))).map List.length).sum,
         errs ++ failEntries write i bs) := by
  intro bs
  induction bs with
  | nil => intro i processed errored errs; simp [syncLoop, failEntries]
  | cons b rest ih =>
    intro i processed errored errs
    rw [syncLoop]
    cases hw : write b with
    | ok u =>
      dsimp only
      rw [ih]
      simp [Prod.mk.injEq, exceptOk, hw, List.filter_cons, failEntries]
      omega
    | error e =>
      dsimp only
      rw [ih]
      simp [Prod.mk.injEq, exceptOk, hw, List.filter_cons, failEntries]
      omega

/-- Claim C6: a batch whose write call throws does not abort the full
sync.  First, in general, the summary counts the sizes of all succeeding
and all failing batches and records one error entry per failing batch with
its product ids and error message, every batch being visited.  Second, the
concrete scenario: a 120-item catalog chunks into batches of 50, 50 and
20; failing exactly the second batch's write yields processedCount 70,
errorCount 50 and a single error entry carrying the 50 ids of the failed
batch. -/
theorem performFullSync_batch_failure :
    (∀ (write : List SourceProduct → Except String Unit) (products : List SourceProduct),
       performFullSync write products =
         { success := true
           totalProducts := products.length
           processedCount :=
             (((chunkArray products 50).filter (fun b => exceptOk (write b))).map
               List.length).sum
           errorCount :=
             (((chunkArray products 50).filter (fun b => !exceptOk (write b))).map
               List.length).sum
           errors :=
             if (failEntries write 0 (chunkArray products 50)).length > 0 then
               some (failEntries write 0 (chunkArray products 50))
             else none }) ∧
    performFullSync failSecondBatch scenarioProducts =
      { success := true
        totalProducts := 120
        processedCount := 70
        errorCount := 50
        errors := some [{ batchIndex := 1
                          error := "simulated failure"
                          products := (List.range 50).map (fun i => toString (i + 50)) }] } := by
  constructor
  · intro write products
    unfold performFullSync
    simp only []
    rw [syncLoop_spec]
    simp
  · rfl

/-- Claim C1: a source product whose primary variant carries zero price
entries (or that has no variant at all) transforms to an item with no
priceInfo block. -/
theorem transform_priceInfo_absent_without_prices (env : EnvConfig) (p : SourceProduct)
    (h : primaryVariant p = none ∨
      ∃ v, primaryVariant p = some v ∧ (v.prices = none ∨ v.prices = some [])) :
    (transformToRetailProduct env p).priceInfo = none := by
  rcases h with h | ⟨v, hv, hp | hp⟩
  · simp [transformToRetailProduct, extractPricingFromCommercetools, h]
  · simp [transformToRetailProduct, extractPricingFromCommercetools, hv, hp]
  · simp [transformToRetailProduct, extractPricingFromCommercetools, hv, hp]

/-- Witness for C1 at a concrete product. -/
theorem transform_priceInfo_absent_without_prices_witness :
    (transformToRetailProduct envPlain emptyPricesProduct).priceInfo = none :=
  transform_priceInfo_absent_without_prices envPlain emptyPricesProduct
    (Or.inr ⟨emptyPricesVariant, rfl, Or.inr rfl⟩)

/-- Counterexample to C2 as stated.  Both products carry a discounted
sub-price on the first price entry of the primary variant, yet: with base
cent amount 0 and discounted 500 the emitted originalPrice is 5 (the
discounted value), not 0/100 as the claim demands; and with base 1000 and
discounted cent amount 0 the emitted price is 10 (the base), not 0/100 as
the claim demands. -/
theorem transform_pricing_claim_counterexample :
    ((transformToRetailProduct envPlain zeroBaseDiscProduct).priceInfo.map
      (fun pi => pi.originalPrice)) = some 5 ∧
    (5 : ℚ) ≠ (0 : ℚ) / 100 ∧
    ((transformToRetailProduct envPlain zeroDiscProduct).priceInfo.map
      (fun pi => pi.price)) = some 10 ∧
    (10 : ℚ) ≠ (0 : ℚ) / 100 := by
  refine ⟨?_, by norm_num, ?_, by norm_num⟩
  · norm_num [transformToRetailProduct, extractPricingFromCommercetools, zeroBaseDiscProduct,
      zeroBaseDiscPrice, productWithMasterVariant, primaryVariant, currentOf]
  · norm_num [transformToRetailProduct, extractPricingFromCommercetools, zeroDiscProduct,
      zeroDiscPrice, productWithMasterVariant, primaryVariant, currentOf]

/-- Claim C2 (amended): for the first price entry of the primary variant,
when a discounted sub-price with nonzero cent amount is present and the
base cent amount is nonzero, the emitted price is the discounted amount
over 100 and the original price the base amount over 100; when no
discounted sub-price is present both equal the base amount over 100; the
currency code falls back to "USD" when unspecified. -/
theorem transform_pricing_discount_amended (env : EnvConfig) (p : SourceProduct)
    (v : Variant) (price : Price) (rest : List Price) (pv : PriceValue) (b : Int)
    (hv : primaryVariant p = some v)
    (hp : v.prices = some (price :: rest))
    (hpv : price.value = some pv)
    (hb : pv.centAmount = some b) :
    (∀ (disc : DiscountedPrice) (dv : PriceValue) (d : Int),
       price.discounted = some disc → disc.value = some dv → dv.centAmount = some d →
       d ≠ 0 → b ≠ 0 →
       ((transformToRetailProduct env p).priceInfo.map (fun pi => pi.price)) =
         some ((d : ℚ) / 100) ∧
       ((transformToRetailProduct env p).priceInfo.map (fun pi => pi.originalPrice)) =
         some ((b : ℚ) / 100)) ∧
    (price.discounted = none →
       ((transformToRetailProduct env p).priceInfo.map (fun pi => pi.price)) =
         some ((b : ℚ) / 100) ∧
       ((transformToRetailProduct env p).priceInfo.map (fun pi => pi.originalPrice)) =
         some ((b : ℚ) / 100)) ∧
    (pv.currencyCode = none →
       ((transformToRetailProduct env p).priceInfo.map (fun pi => pi.currencyCode)) =
         some "USD") := by
  refine ⟨?_, ?_, ?_⟩
  · intro disc dv d hd hdv hdc hdne hbne
    have hb100 : ((b : ℚ) / 100) ≠ 0 :=
      div_ne_zero (Int.cast_ne_zero.mpr hbne) (by norm_num)
    simp [transformToRetailProduct, extractPricingFromCommercetools, hv, hp, hpv, hb,
      hd, hdv, hdc, hdne, hbne, hb100]
  · intro hd
    by_cases hb0 : b = 0
    · simp [transformToRetailProduct, extractPricingFromCommercetools, hv, hp, hpv, hb, hd, hb0]
    · simp [transformToRetailProduct, extractPricingFromCommercetools, hv, hp, hpv, hb, hd, hb0]
  · intro hcc
    rcases hdisc : price.discounted with _ | disc
    · simp [transformToRetailProduct, extractPricingFromCommercetools, hv, hp, hpv, hb,
        hdisc, hcc, orStrD]
    · rcases hdv : disc.value with _ | dv2
      · simp [transformToRetailProduct, extractPricingFromCommercetools, hv, hp, hpv, hb,
          hdisc, hdv, hcc, orStrD]
      · rcases hdc : dv2.centAmount with _ | d2
        · simp [transformToRetailProduct, extractPricingFromCommercetools, hv, hp, hpv, hb,
            hdisc, hdv, hdc, hcc, orStrD]
        · by_cases hd0 : d2 = 0
          · simp [transformToRetailProduct, extractPricingFromCommercetools, hv, hp, hpv, hb,
              hdisc, hdv, hdc, hcc, hd0, orStrD]
          · simp [transformToRetailProduct, extractPricingFromCommercetools, hv, hp, hpv, hb,
              hdisc, hdv, hdc, hcc, hd0, orStrD]

/-- Witness for the amended C2 at a concrete discounted product. -/
theorem transform_pricing_discount_amended_witness :
    ((transformToRetailProduct envPlain discountedProduct).priceInfo.map
      (fun pi => pi.price)) = some ((1500 : ℚ) / 100) ∧
    ((transformToRetailProduct envPlain discountedProduct).priceInfo.map
      (fun pi => pi.originalPrice)) = some ((2000 : ℚ) / 100) ∧
    ((transformToRetailProduct envPlain discountedProduct).priceInfo.map
      (fun pi => pi.currencyCode)) = some "USD" := by
  have t := transform_pricing_discount_amended envPlain discountedProduct
    discountedVariant discountedPriceEntry [] { currencyCode := none, centAmount := some 2000 }
    2000 rfl rfl rfl rfl
  obtain ⟨h1, h2⟩ := t.1 { value := some { currencyCode := none, centAmount := some 1500 } }
    { currencyCode := none, centAmount := some 1500 } 1500 rfl rfl rfl
    (by norm_num) (by norm_num)
  exact ⟨h1, h2, t.2.2 rfl⟩

/-- Every direct-availability result has its flag consistent with its
quantity. -/
theorem variantAvailDirect_consistent (v : Variant) (r : AvailabilityInfo)
    (h : variantAvailDirect v = some r) :
    r.isAvailable = decide (0 < r.availableQuantity) := by
  unfold variantAvailDirect at h
  rcases hv : v.availability with _ | av <;> rw [hv] at h <;> dsimp only at h
  · simp at h
  · rcases hq : av.availableQuantity with _ | q <;> rw [hq] at h <;> dsimp only at h
    · simp at h
    · simp at h
      rw [← h]

/-- Every attribute-based availability result has its flag consistent with
its quantity. -/
theorem variantAvailAttrs_consistent (v : Variant) (r : AvailabilityInfo)
    (h : variantAvailAttrs v = some r) :
    r.isAvailable = decide (0 < r.availableQuantity) := by
  unfold variantAvailAttrs at h
  rcases hv : v.attributes with _ | attrs <;> rw [hv] at h <;> dsimp only at h
  · simp at h
  · rcases ha : findStockAttr attrs with _ | a <;> rw [ha] at h <;> dsimp only at h
    · simp at h
    · by_cases ht : jsonTruthy a.value
      · simp [ht] at h
        rw [← h]
      · simp [ht] at h

/-- The variant loop preserves flag/quantity consistency. -/
theorem availLoop_consistent :
    ∀ (vs : List Variant) (r : AvailabilityInfo), availLoop vs = some r →
      r.isAvailable = decide (0 < r.availableQuantity) := by
  intro vs
  induction vs with
  | nil => intro r h; simp [availLoop] at h
  | cons v rest ih =>
    intro r h
    rw [availLoop] at h
    rcases hd : variantAvailDirect v with _ | rd <;> rw [hd] at h <;> dsimp only at h
    · rcases hatt : variantAvailAttrs v with _ | ra <;> rw [hatt] at h <;> dsimp only at h
      · exact ih r h
      · simp at h
        rw [← h]
        exact variantAvailAttrs_consistent v ra hatt
    · simp at h
      rw [← h]
      exact variantAvailDirect_consistent v rd hd

/-- The extracted availability flag always equals the positivity of the
extracted quantity. -/
theorem availInfo_consistent (p : SourceProduct) :
    (extractAvailabilityFromCommercetools p).isAvailable =
      decide (0 < (extractAvailabilityFromCommercetools p).availableQuantity) := by
  unfold extractAvailabilityFromCommercetools
  rcases hmv : (currentOf p).bind (fun c => c.masterVariant) with _ | mv <;> dsimp only
  · rcases hl : availLoop (((currentOf p).bind (fun c => c.variants)).getD []) with _ | r <;>
      dsimp only
    · rfl
    · exact availLoop_consistent _ r hl
  · rcases hd : variantAvailDirect mv with _ | rd <;> dsimp only
    · rcases hatt : variantAvailAttrs mv with _ | ra <;> dsimp only
      · rcases hl : availLoop (((currentOf p).bind (fun c => c.variants)).getD []) with _ | r <;>
          dsimp only
        · rfl
        · exact availLoop_consistent _ r hl
      · exact variantAvailAttrs_consistent mv ra hatt
    · exact variantAvailDirect_consistent mv rd hd

/-- Claim C3: every transformed item carries a fulfillment list in which a
generic delivery option is always present, a same-day-delivery option is
present exactly when the extracted quantity exceeds 10, and a
pickup-in-store option exactly when it is positive (so quantity 0 has no
same-day-delivery and quantity 11 has it). -/
theorem transform_fulfillment_options (env : EnvConfig) (p : SourceProduct) :
    ∃ l, (transformToRetailProduct env p).fulfillmentInfo = some l ∧
      ("delivery" ∈ l.map (fun f => f.type)) ∧
      (("same-day-delivery" ∈ l.map (fun f => f.type)) ↔
        10 < (extractAvailabilityFromCommercetools p).availableQuantity) ∧
      (("pickup-in-store" ∈ l.map (fun f => f.type)) ↔
        0 < (extractAvailabilityFromCommercetools p).availableQuantity) := by
  have hcons := availInfo_consistent p
  set a := extractAvailabilityFromCommercetools p with ha
  have hlen : 0 < (buildFulfillmentInfo a).length := by
    unfold buildFulfillmentInfo
    split <;> split <;> simp
  refine ⟨buildFulfillmentInfo a, ?_, ?_, ?_, ?_⟩
  · simp [transformToRetailProduct, hlen]
  · simp [buildFulfillmentInfo]
  · unfold buildFulfillmentInfo
    by_cases h10 : 10 < a.availableQuantity
    · have h0 : (0 : Int) < a.availableQuantity := by omega
      have hia : a.isAvailable = true := by rw [hcons]; simp [h0]
      simp [hia, h10]
    · have hsd : (a.isAvailable && decide (a.availableQuantity > 10)) = false := by
        simp [h10]
      simp [hsd, h10]
  · unfold buildFulfillmentInfo
    by_cases h0 : (0 : Int) < a.availableQuantity
    · have hia : a.isAvailable = true := by rw [hcons]; simp [h0]
      simp [hia, h0]
    · have hia : a.isAvailable = false := by rw [hcons]; simp [h0]
      simp [hia, h0]

/-- Counterexample to C7 as stated: on a bag listing `qty = "5"` before
`stock = "7"` the code extracts quantity 5 (first attribute in bag order),
whereas scanning the enumerated keys in priority order, as the claim
words it, selects the `stock` attribute and yields 7. -/
theorem availability_key_priority_counterexample :
    (extractAvailabilityFromCommercetools keyOrderProduct).availableQuantity = 5 ∧
    (specKeyPriorityScan keyOrderAttrs).map (fun a => parseIntOr0 a.value) = some 7 ∧
    (5 : Int) ≠ 7 := by
  refine ⟨by decide, by decide, by decide⟩

/-- The bag-order find selects the first attribute with a recognized
name. -/
theorem findStockAttr_split (pre post : List ProdAttribute) (a : ProdAttribute)
    (hpre : ∀ b ∈ pre, isStockAttrName b.name = false)
    (ha : isStockAttrName a.name = true) :
    findStockAttr (pre ++ a :: post) = some a := by
  induction pre with
  | nil => simp [findStockAttr, List.find?_cons, ha]
  | cons b rest ih =>
    have hb : isStockAttrName b.name = false := hpre b (by simp)
    simp only [List.cons_append, findStockAttr, List.find?_cons, hb]
    exact ih (fun x hx => hpre x (by simp [hx]))

/-- The variant loop yields nothing when no variant yields anything. -/
theorem availLoop_all_none :
    ∀ (vs : List Variant),
      (∀ v ∈ vs, variantAvailDirect v = none ∧ variantAvailAttrs v = none) →
      availLoop vs = none := by
  intro vs
  induction vs with
  | nil => intro _; rfl
  | cons v rest ih =>
    intro h
    have hv := h v (by simp)
    rw [availLoop, hv.1, hv.2]
    exact ih (fun x hx => h x (by simp [hx]))

/-- Claim C7 (amended): the master variant's direct availability wins over
everything; absent that, the FIRST attribute IN BAG ORDER whose name is
one of the recognized stock keys is consulted (not the enumerated
key-priority order the claim states), and wins when its value is truthy;
when no variant yields anything the quantity defaults to 0. -/
theorem availability_extraction_amended :
    (∀ (p : SourceProduct) (mv : Variant) (q : Int),
       (currentOf p).bind (fun c => c.masterVariant) = some mv →
       mv.availability = some { availableQuantity := some q } →
       extractAvailabilityFromCommercetools p =
         { availableQuantity := q, isAvailable := decide (0 < q) }) ∧
    (∀ (p : SourceProduct) (mv : Variant) (pre post : List ProdAttribute)
       (a : ProdAttribute),
       (currentOf p).bind (fun c => c.masterVariant) = some mv →
       (mv.availability = none ∨ mv.availability = some { availableQuantity := none }) →
       mv.attributes = some (pre ++ a :: post) →
       (∀ b ∈ pre, isStockAttrName b.name = false) →
       isStockAttrName a.name = true →
       jsonTruthy a.value = true →
       extractAvailabilityFromCommercetools p =
         { availableQuantity := parseIntOr0 a.value,
           isAvailable := decide (0 < parseIntOr0 a.value) }) ∧
    (∀ (p : SourceProduct),
       (∀ mv, (currentOf p).bind (fun c => c.masterVariant) = some mv →
          variantAvailDirect mv = none ∧ variantAvailAttrs mv = none) →
       (∀ v ∈ (((currentOf p).bind (fun c => c.variants)).getD []),
          variantAvailDirect v = none ∧ variantAvailAttrs v = none) →
       extractAvailabilityFromCommercetools p =
         { availableQuantity := 0, isAvailable := false }) := by
  refine ⟨?_, ?_, ?_⟩
  · intro p mv q hmv hav
    unfold extractAvailabilityFromCommercetools
    rw [hmv]
    dsimp only
    unfold variantAvailDirect
    rw [hav]
  · intro p mv pre post a hmv hav hattrs hpre ha ht
    unfold extractAvailabilityFromCommercetools
    rw [hmv]
    dsimp only
    have hdir : variantAvailDirect mv = none := by
      unfold variantAvailDirect
      rcases hav with hav | hav <;> rw [hav]
    rw [hdir]
    dsimp only
    unfold variantAvailAttrs
    rw [hattrs]
    dsimp only
    rw [findStockAttr_split pre post a hpre ha]
    simp [ht]
  · intro p hmaster hvars
    unfold extractAvailabilityFromCommercetools
    rcases hmv : (currentOf p).bind (fun c => c.masterVariant) with _ | mv <;> dsimp only
    · rw [availLoop_all_none _ hvars]
    · have h := hmaster mv hmv
      rw [h.1, h.2]
      dsimp only
      rw [availLoop_all_none _ hvars]

/-- Witness for the amended C7 at concrete products for each of the three
precedence cases. -/
theorem availability_extraction_amended_witness :
    extractAvailabilityFromCommercetools directAvailProduct =
      { availableQuantity := 42, isAvailable := true } ∧
    extractAvailabilityFromCommercetools keyOrderProduct =
      { availableQuantity := 5, isAvailable := true } ∧
    extractAvailabilityFromCommercetools (trivialProduct "prod-w") =
      { availableQuantity := 0, isAvailable := false } := by
  refine ⟨?_, ?_, ?_⟩
  · have h := availability_extraction_amended.1 directAvailProduct
      { sku := none, prices := none, attributes := none, images := none,
        availability := some { availableQuantity := some 42 } } 42 rfl rfl
    rw [h]
    decide
  · have h := availability_extraction_amended.2.1 keyOrderProduct
      { sku := none, prices := none, attributes := some keyOrderAttrs, images := none,
        availability := none }
      [] [{ name := "stock", value := Json.str "7" }]
      { name := "qty", value := Json.str "5" }
      rfl (Or.inl rfl) rfl (by simp) (by decide) (by decide)
    rw [h]
    decide
  · exact availability_extraction_amended.2.2 (trivialProduct "prod-w")
      (fun mv hmv => by simp [currentOf, trivialProduct] at hmv)
      (by simp [currentOf, trivialProduct])

/-- Assigning a key makes it present with the assigned value. -/
theorem lookupAttr_objSet_same : ∀ (m : List (String × List String)) (k : String)
    (v : List String), lookupAttr (objSet m k v) k = some v := by
  intro m
  induction m with
  | nil => intro k v; simp [objSet, lookupAttr]
  | cons kv rest ih =>
    intro k v
    by_cases h : kv.1 = k
    · simp [objSet, h, lookupAttr]
    · simp [objSet, h, lookupAttr, ih]

/-- Assigning a key leaves every other key unchanged. -/
theorem lookupAttr_objSet_other : ∀ (m : List (String × List String)) (k n : String)
    (v : List String), n ≠ k → lookupAttr (objSet m k v) n = lookupAttr m n := by
  intro m
  induction m with
  | nil => intro k n v h; simp [objSet, lookupAttr, Ne.symm h]
  | cons kv rest ih =>
    intro k n v h
    by_cases hk : kv.1 = k
    · subst hk
      simp [objSet, lookupAttr, Ne.symm h]
    · by_cases hn : kv.1 = n
      · simp [objSet, hk, lookupAttr, hn, h, Ne.symm h]
      · simp [objSet, hk, lookupAttr, hn, ih _ _ _ h]

/-- A lookup after the attribute-copy loop sees the last truthy-valued
attribute with that name, falling back to the initial object. -/
theorem lookupAttr_buildAttrs_fold : ∀ (attrs : List ProdAttribute)
    (acc : List (String × List String)) (n : String),
    lookupAttr (attrs.foldl
      (fun acc a => if jsonTruthy a.value then objSet acc a.name [jsToString a.value] else acc)
      acc) n =
      match lastTruthyAttr attrs n with
      | some a => some [jsToString a.value]
      | none => lookupAttr acc n := by
  intro attrs
  induction attrs with
  | nil => intro acc n; simp [lastTruthyAttr]
  | cons a rest ih =>
    intro acc n
    rw [List.foldl_cons, ih]
    rw [lastTruthyAttr]
    rcases hrest : lastTruthyAttr rest n with _ | b
    · dsimp only
      by_cases ht : jsonTruthy a.value
      · by_cases hn : a.name = n
        · subst hn
          simp [ht, lookupAttr_objSet_same]
        · simp [ht, hn, lookupAttr_objSet_other _ _ _ _ (Ne.symm hn)]
      · simp [ht]
    · rfl

/-- Counterexample to C8 as stated: at this product no `product_type`
attribute is injected (the source only injects it when the product carries
one), the variant attribute named `sku` is not copied verbatim (the
injected SKU overwrites it), and the first `color` attribute is not
retained (the later one overwrites it). -/
theorem transform_attributes_claim_counterexample :
    lookupAttr (transformToRetailProduct envPlain attrCollisionProduct).attributes
      "product_type" = none ∧
    lookupAttr (transformToRetailProduct envPlain attrCollisionProduct).attributes
      "sku" = some ["SKU1"] ∧
    (["SKU1"] : List String) ≠ ["fake"] ∧
    lookupAttr (transformToRetailProduct envPlain attrCollisionProduct).attributes
      "color" = some ["blue"] ∧
    (["blue"] : List String) ≠ ["red"] := by
  refine ⟨by decide, by decide, by decide, by decide, by decide⟩

/-- Claim C8 (amended): the attribute map always carries the SKU under
`sku` and the region tag under `ctp_region`; it carries the product type
under `product_type` exactly when the source has a truthy one; and every
other key holds the stringified value of the LAST truthy-valued variant
attribute with that name (earlier duplicates and falsy values are not
retained, and the injected keys shadow same-named variant attributes). -/
theorem transform_attributes_amended (env : EnvConfig) (p : SourceProduct) :
    lookupAttr (transformToRetailProduct env p).attributes "sku" = some [skuOf p] ∧
    lookupAttr (transformToRetailProduct env p).attributes "ctp_region" =
      some [orStrD env.ctpRegion "unknown"] ∧
    (strTruthyOpt p.productType = true →
      lookupAttr (transformToRetailProduct env p).attributes "product_type" =
        some [p.productType.getD ""]) ∧
    (∀ n, n ≠ "sku" → n ≠ "ctp_region" →
      (strTruthyOpt p.productType = true → n ≠ "product_type") →
      lookupAttr (transformToRetailProduct env p).attributes n =
        (lastTruthyAttr (attrsOfPrimary p) n).map (fun a => [jsToString a.value])) := by
  have hm0 : (match (primaryVariant p).bind (fun v => v.attributes) with
              | some attrs => buildAttrs attrs
              | none => ([] : List (String × List String))) =
      buildAttrs (attrsOfPrimary p) := by
    rcases h : (primaryVariant p).bind (fun v => v.attributes) with _ | attrs <;>
      simp [attrsOfPrimary, h, buildAttrs]
  refine ⟨?_, ?_, ?_, ?_⟩
  · simp only [transformToRetailProduct]
    rw [lookupAttr_objSet_other _ _ _ _ (by decide)]
    by_cases hpt : strTruthyOpt p.productType = true
    · simp only [hpt, if_true]
      rw [lookupAttr_objSet_other _ _ _ _ (by decide)]
      rw [lookupAttr_objSet_same]
      simp [skuOf]
    · simp only [hpt, if_false, Bool.false_eq_true]
      rw [lookupAttr_objSet_same]
      simp [skuOf]
  · simp only [transformToRetailProduct]
    rw [lookupAttr_objSet_same]
  · intro hpt
    simp only [transformToRetailProduct]
    rw [lookupAttr_objSet_other _ _ _ _ (by decide)]
    simp only [hpt, if_true]
    rw [lookupAttr_objSet_same]
  · intro n hn1 hn2 hn3
    simp only [transformToRetailProduct]
    rw [lookupAttr_objSet_other _ _ _ _ hn2]
    by_cases hpt : strTruthyOpt p.productType = true
    · simp only [hpt, if_true]
      rw [lookupAttr_objSet_other _ _ _ _ (hn3 hpt)]
      rw [lookupAttr_objSet_other _ _ _ _ hn1]
      rw [hm0]
      unfold buildAttrs
      rw [lookupAttr_buildAttrs_fold]
      rcases lastTruthyAttr (attrsOfPrimary p) n with _ | a <;> simp [lookupAttr]
    · simp only [hpt, if_false, Bool.false_eq_true]
      rw [lookupAttr_objSet_other _ _ _ _ hn1]
      rw [hm0]
      unfold buildAttrs
      rw [lookupAttr_buildAttrs_fold]
      rcases lastTruthyAttr (attrsOfPrimary p) n with _ | a <;> simp [lookupAttr]

/-- Witness for the amended C8 at a concrete product and environment. -/
theorem transform_attributes_amended_witness :
    lookupAttr (transformToRetailProduct envRegion attrWitnessProduct).attributes "sku" =
      some ["W-SKU"] ∧
    lookupAttr (transformToRetailProduct envRegion attrWitnessProduct).attributes
      "ctp_region" = some ["us-central1"] ∧
    lookupAttr (transformToRetailProduct envRegion attrWitnessProduct).attributes
      "product_type" = some ["Type A"] ∧
    lookupAttr (transformToRetailProduct envRegion attrWitnessProduct).attributes
      "color" = some ["red"] := by
  have t := transform_attributes_amended envRegion attrWitnessProduct
  refine ⟨?_, ?_, ?_, ?_⟩
  · rw [t.1]; decide
  · rw [t.2.1]; decide
  · rw [t.2.2.1 (by decide)]; decide
  · rw [t.2.2.2 "color" (by decide) (by decide) (fun _ => by decide)]; decide

/-- Claim C4: the four known transport shapes carrying the same semantic
content - the payload itself, the `data`-nested form, a Pub/Sub envelope
whose base64 data decodes and parses to the payload, and a
CloudEvents-style envelope - all normalize to the same
(resourceTypeId, resourceId, eventType) tuple. -/
theorem webhook_shapes_same_tuple (rt rid ty : String) (s : String)
    (hs : jsonParse (bytesToString (b64decodeBytes s)) = some (messagePayload rt rid ty)) :
    extractTupleOfMessage (messagePayload rt rid ty) =
      (some (Json.str rt), some (Json.str rid), some (Json.str ty)) ∧
    extractTupleOfMessage (nestedEnvelope rt rid ty) =
      (some (Json.str rt), some (Json.str rid), some (Json.str ty)) ∧
    extractTupleOfMessage (pubsubEnvelope s) =
      (some (Json.str rt), some (Json.str rid), some (Json.str ty)) ∧
    extractTupleOfMessage (cloudEventsEnvelope rt rid ty) =
      (some (Json.str rt), some (Json.str rid), some (Json.str ty)) := by
  have hsne : s ≠ "" := by
    intro hc
    rw [hc] at hs
    have hemp : jsonParse (bytesToString (b64decodeBytes "")) = none := by rfl
    rw [hemp] at hs
    exact Option.noConfusion hs
  refine ⟨rfl, rfl, ?_, rfl⟩
  have hwp : workingPayload (pubsubEnvelope s) = messagePayload rt rid ty := by
    unfold workingPayload
    simp [pubsubEnvelope, jget, findField, jsonTruthy, hsne, hs, otruthy, messagePayload]
  unfold extractTupleOfMessage
  rw [hwp]
  rfl

set_option maxRecDepth 8000 in
/-- Witness for C4 at a concrete payload and its concrete base64
serialization. -/
theorem webhook_shapes_same_tuple_witness :
    extractTupleOfMessage (messagePayload "product" "p1" "ProductPublished") =
      (some (Json.str "product"), some (Json.str "p1"),
       some (Json.str "ProductPublished")) ∧
    extractTupleOfMessage (nestedEnvelope "product" "p1" "ProductPublished") =
      (some (Json.str "product"), some (Json.str "p1"),
       some (Json.str "ProductPublished")) ∧
    extractTupleOfMessage (pubsubEnvelope pubsubWitnessData) =
      (some (Json.str "product"), some (Json.str "p1"),
       some (Json.str "ProductPublished")) ∧
    extractTupleOfMessage (cloudEventsEnvelope "product" "p1" "ProductPublished") =
      (some (Json.str "product"), some (Json.str "p1"),
       some (Json.str "ProductPublished")) :=
  webhook_shapes_same_tuple "product" "p1" "ProductPublished" pubsubWitnessData (by rfl)

/-- A field list containing no binding for a key looks it up to nothing. -/
theorem findField_not_mem : ∀ (fields : List (String × Json)) (k : String),
    (∀ kv ∈ fields, kv.1 ≠ k) → findField fields k = none := by
  intro fields
  induction fields with
  | nil => intro k _; rfl
  | cons kv rest ih =>
    intro k h
    have hk : kv.1 ≠ k := h kv (by simp)
    simp only [findField, hk, if_neg]
    exact ih k (fun x hx => h x (by simp [hx]))

/-- Claim C5: a webhook body that is a JSON object with none of the
recognized fields (the empty object in particular) makes the message
handler return the soft result with success true and action "ignored",
without throwing, whatever the sync service would do. -/
theorem unparsable_message_ignored
    (sync : Json → String → Except String HandlerResult)
    (fields : List (String × Json))
    (h : ∀ kv ∈ fields, kv.1 ∉ probedFieldNames) :
    handleMessage sync (Json.obj fields) =
      Except.ok { success := true, action := some "ignored",
                  message := some "Message received but could not parse" } := by
  have hnone : ∀ k ∈ probedFieldNames, findField fields k = none := by
    intro k hk
    apply findField_not_mem
    intro kv hkv hc
    exact h kv hkv (hc ▸ hk)
  have hm := hnone "message" (by decide)
  have hd := hnone "data" (by decide)
  have hnt := hnone "notificationType" (by decide)
  have hres := hnone "resource" (by decide)
  have hrti := hnone "resourceTypeId" (by decide)
  have hri := hnone "resourceId" (by decide)
  have hrt := hnone "resourceType" (by decide)
  have hti := hnone "typeId" (by decide)
  have hty := hnone "type" (by decide)
  have hct := hnone "changeType" (by decide)
  have hmt := hnone "messageType" (by decide)
  have het := hnone "eventType" (by decide)
  have hpi := hnone "productId" (by decide)
  have hpr := hnone "product" (by decide)
  have hid := hnone "id" (by decide)
  have hkey := hnone "key" (by decide)
  have hsub := hnone "subject" (by decide)
  have hraw := hnone "rawData" (by decide)
  have hwp : workingPayload (Json.obj fields) = Json.obj fields := by
    unfold workingPayload
    simp [jget, hm, hd]
  unfold handleMessage
  rw [hwp]
  simp [extractTuple, jget, jgetOpt, jsOr, optIsStr, otruthy,
    hm, hd, hnt, hres, hrti, hri, hrt, hti, hty, hct, hmt, het, hpi, hpr, hid, hkey, hsub,
    hraw]

/-- Witness for C5 at the empty object and at an object with only an
unrecognized field, with a sync service that would throw if it were ever
consulted. -/
theorem unparsable_message_ignored_witness :
    handleMessage (fun _ _ => Except.error "should not be called") (Json.obj []) =
      Except.ok { success := true, action := some "ignored",
                  message := some "Message received but could not parse" } ∧
    handleMessage (fun _ _ => Except.error "should not be called")
      (Json.obj [("foo", Json.num 1)]) =
      Except.ok { success := true, action := some "ignored",
                  message := some "Message received but could not parse" } :=
  ⟨unparsable_message_ignored (fun _ _ => Except.error "should not be called") [] (by decide),
   unparsable_message_ignored (fun _ _ => Except.error "should not be called")
     [("foo", Json.num 1)] (by decide)⟩
